import Mathlib

/-!
Shallow embedding of the coordination core of the ModelAI repository
(`src/agents/base_agent.py`, `src/api/claude_client.py`,
`src/api/multi_ai_client.py`) and proofs about it.

Conventions used throughout:
* Python floats (timestamps, delays, scores, rates) are modelled as exact
  rationals; overflow and rounding play no role in any property below.
* Python exceptions are modelled with `Except String`: a raised exception is
  an `Except.error` value carrying its description.
* `async` methods of one object are modelled as atomic state transformers
  between `await` points; an `await` splits a method into separate steps of an
  explicit operation relation where interleaving matters.
* Opaque payload fields (`input_data`, `output_data`, `metadata`,
  `created_at`) are omitted: no modelled behaviour reads them.
-/

namespace ModelAI

/-! ## Data model (`base_agent.py`, lines 21-72) -/

/-- `TaskPriority` enum (`base_agent.py` lines 30-35). -/
inductive TaskPriority
  | low
  | medium
  | high
  | critical
deriving DecidableEq, Repr

/-- The `priority_order` mapping built inside `_insert_task_by_priority`
(`base_agent.py` lines 149-154): CRITICAL 0, HIGH 1, MEDIUM 2, LOW 3. -/
def priorityOrder : TaskPriority → Nat
  | .critical => 0
  | .high => 1
  | .medium => 2
  | .low => 3

/-- `AgentTask` dataclass (`base_agent.py` lines 38-49), restricted to the
fields the coordination core reads. -/
structure AgentTask where
  task_id : String
  priority : TaskPriority
  dependencies : List String
deriving DecidableEq, Repr

/-- `AgentResult` dataclass (`base_agent.py` lines 56-68), restricted to the
fields the coordination core reads. -/
structure AgentResult where
  task_id : String
  agent_id : String
  result_type : String
  success : Bool
  error_message : Option String
  processing_time : Option ℚ
  quality_score : Option ℚ
deriving DecidableEq, Repr

/-- `AgentStatus` enum (`base_agent.py` lines 21-27). -/
inductive AgentStatus
  | idle
  | working
  | completed
  | error
  | paused
deriving DecidableEq, Repr

/-- The mutable fields of a `BaseAgent` instance that the coordination core
touches (`base_agent.py` lines 84-98). -/
structure AgentState where
  agent_id : String
  status : AgentStatus
  current_task : Option AgentTask
  task_queue : List AgentTask
  results_history : List AgentResult
  total_tasks_completed : Nat
  total_processing_time : ℚ
  success_rate : ℚ
  average_quality_score : ℚ
deriving DecidableEq, Repr

/-- The state of a freshly constructed agent (`base_agent.py` lines 88-98):
idle, no current task, empty queue and history, `success_rate = 1.0`,
`average_quality_score = 0.0`. -/
def initialAgentState (agent_id : String) : AgentState where
  agent_id := agent_id
  status := .idle
  current_task := none
  task_queue := []
  results_history := []
  total_tasks_completed := 0
  total_processing_time := 0
  success_rate := 1
  average_quality_score := 0

/-! ## Queue insertion (`base_agent.py` lines 147-165) -/

/-- `BaseAgent._insert_task_by_priority` (`base_agent.py` lines 147-165):
scan for the first queued task whose `priority_order` is strictly greater
(i.e. strictly lower priority) than the new task's, defaulting to the queue
length, and insert there. -/
def _insert_task_by_priority (queue : List AgentTask) (task : AgentTask) : List AgentTask :=
  let insertIndex :=
    queue.findIdx fun queued => priorityOrder task.priority < priorityOrder queued.priority
  queue.insertIdx insertIndex task

/-! ## Dependency check and task admission (`base_agent.py` lines 121-179) -/

/-- `BaseAgent._check_dependencies` (`base_agent.py` lines 167-179): every
dependency id must be the `task_id` of some result with `success = true`
already in `results_history` (vacuously true for no dependencies). -/
def _check_dependencies (history : List AgentResult) (task : AgentTask) : Bool :=
  task.dependencies.all fun dependency =>
    (history.filter fun r => r.success).any fun r => r.task_id == dependency

/-- `BaseAgent.add_task` (`base_agent.py` lines 121-145): returns `false`
without touching the queue when `_check_dependencies` fails, otherwise
inserts by priority and returns `true`.  (The `asyncio.create_task` trigger
on line 139 is scheduling, modelled as a separate `AgentOp.startProcess`
step; the `except` clause is unreachable for the modelled fields.) -/
def add_task (s : AgentState) (task : AgentTask) : Bool × AgentState :=
  if _check_dependencies s.results_history task then
    (true, { s with task_queue := _insert_task_by_priority s.task_queue task })
  else
    (false, s)

/-! ## Task processing (`base_agent.py` lines 181-251)

`_process_next_task` contains one `await` (line 196, the call to the abstract
`_process_task`).  It is therefore embedded as two atomic halves:
`startProcess` (lines 183-189, up to the `await`) and `finishProcess`
(lines 196-235, from the `await`'s return or raise through the `finally`
block).  The outcome of the awaited `_process_task` call is passed in as an
`Except String AgentResult` value — `Except.error` for a raised exception —
and the measured wall-clock duration as the rational `ptime`. -/

/-- First half of `BaseAgent._process_next_task` (`base_agent.py` lines
183-189): return unchanged unless the queue is non-empty and the status is
IDLE; otherwise pop the front task, make it current, and go WORKING. -/
def startProcess (s : AgentState) : AgentState :=
  match s.task_queue, s.status with
  | task :: rest, .idle =>
      { s with task_queue := rest, current_task := some task, status := .working }
  | _, _ => s

/-- `BaseAgent._update_statistics` (`base_agent.py` lines 237-251), called
after the result has been appended, so `s.results_history` already contains
`result` here.  `if result.processing_time:` is Python truthiness: both
`None` and `0.0` skip the accumulation. -/
def _update_statistics (s : AgentState) (result : AgentResult) : AgentState :=
  let total_tasks_completed := s.total_tasks_completed + 1
  let total_processing_time :=
    match result.processing_time with
    | some t => if t = 0 then s.total_processing_time else s.total_processing_time + t
    | none => s.total_processing_time
  let successful_tasks := (s.results_history.filter fun r => r.success).length
  let success_rate := (successful_tasks : ℚ) / (s.results_history.length : ℚ)
  let quality_scores := s.results_history.filterMap fun r => r.quality_score
  let average_quality_score :=
    if quality_scores = [] then s.average_quality_score
    else quality_scores.sum / (quality_scores.length : ℚ)
  { s with
    total_tasks_completed := total_tasks_completed
    total_processing_time := total_processing_time
    success_rate := success_rate
    average_quality_score := average_quality_score }

/-- Second half of `BaseAgent._process_next_task` (`base_agent.py` lines
196-235).  On a returned result (`Except.ok`): overwrite its
`processing_time` and `agent_id`, append it to history, update statistics.
On a raised exception (`Except.error`): build the error result of lines
216-223 (`success = false`, the error description, no statistics update) and
append it.  Either way the `finally` block (lines 228-231) clears
`current_task` and resets the status to IDLE.  A finish event only exists
while a task is in flight, i.e. while `current_task` is set. -/
def finishProcess (s : AgentState) (outcome : Except String AgentResult) (ptime : ℚ) :
    AgentState :=
  match s.current_task with
  | none => s
  | some task =>
    match outcome with
    | .ok result0 =>
        let result := { result0 with processing_time := some ptime, agent_id := s.agent_id }
        let s1 := { s with results_history := s.results_history ++ [result] }
        let s2 := _update_statistics s1 result
        { s2 with current_task := none, status := .idle }
    | .error e =>
        let error_result : AgentResult :=
          { task_id := task.task_id
            agent_id := s.agent_id
            result_type := "error"
            success := false
            error_message := some e
            processing_time := none
            quality_score := none }
        let s1 := { s with results_history := s.results_history ++ [error_result] }
        { s1 with current_task := none, status := .idle }

/-- One full run of `BaseAgent._process_next_task` (`base_agent.py` lines
181-235) with no interleaved operation at the `await`: the guard of line 183,
then both halves.  `run` gives the outcome of `_process_task` on the popped
task. -/
def _process_next_task (s : AgentState) (run : AgentTask → Except String AgentResult)
    (ptime : ℚ) : AgentState :=
  match s.task_queue, s.status with
  | task :: _, .idle => finishProcess (startProcess s) (run task) ptime
  | _, _ => s

/-- `BaseAgent.pause` (`base_agent.py` lines 314-318): WORKING becomes
PAUSED, anything else is untouched.  `current_task` is not cleared. -/
def pause (s : AgentState) : AgentState :=
  if s.status = .working then { s with status := .paused } else s

/-- `BaseAgent.resume` (`base_agent.py` lines 320-328): PAUSED becomes IDLE,
anything else is untouched.  (The conditional `asyncio.create_task` on line
328 is scheduling, modelled as a separate `AgentOp.startProcess` step.) -/
def resume (s : AgentState) : AgentState :=
  if s.status = .paused then { s with status := .idle } else s

/-! ## Interleaving semantics of one agent -/

/-- The atomic operations on one agent.  `startProcess` and `finishProcess`
are the two halves of `_process_next_task` around its `await`; scheduling a
queued invocation (`asyncio.create_task`) is represented by the scheduler
later taking a `startProcess` step. -/
inductive AgentOp
  | addTask (task : AgentTask)
  | startProcess
  | finishProcess (outcome : Except String AgentResult) (ptime : ℚ)
  | pause
  | resume

/-- Effect of one atomic operation. -/
def applyOp (s : AgentState) : AgentOp → AgentState
  | .addTask task => (add_task s task).2
  | .startProcess => startProcess s
  | .finishProcess outcome ptime => finishProcess s outcome ptime
  | .pause => pause s
  | .resume => resume s

/-- States of one agent reachable from construction by any interleaving of
its operations. -/
inductive ReachableAgent (agent_id : String) : AgentState → Prop
  | init : ReachableAgent agent_id (initialAgentState agent_id)
  | step (s : AgentState) (op : AgentOp) :
      ReachableAgent agent_id s → ReachableAgent agent_id (applyOp s op)

/-! ## ClaudeClient cumulative counters (`claude_client.py` lines 126-172, 394-403) -/

/-- The cumulative counters of a `ClaudeClient` (`claude_client.py` lines
126-129).  `total_cost` is derived and never read by the modelled code. -/
structure ClaudeStats where
  total_requests : Nat
  total_tokens_used : Nat
  error_count : Nat
deriving DecidableEq, Repr

/-- Counter effect of one `ClaudeClient.send_message` call (`claude_client.py`
lines 133-172).  A successful call (with the response reporting `tokens`
total usage) runs lines 159-160; a call whose body raises runs line 170 and
re-raises.  No other counter is touched on either path. -/
def send_message_counters (st : ClaudeStats) (outcome : Except String Nat) : ClaudeStats :=
  match outcome with
  | .ok tokens =>
      { st with
        total_requests := st.total_requests + 1
        total_tokens_used := st.total_tokens_used + tokens }
  | .error _ => { st with error_count := st.error_count + 1 }

/-- The `success_rate` field computed by `ClaudeClient.get_statistics`
(`claude_client.py` line 400):
`(total_requests - error_count) / max(total_requests, 1)` over Python ints,
i.e. a possibly negative exact rational. -/
def get_statistics_success_rate (st : ClaudeStats) : ℚ :=
  ((st.total_requests : ℚ) - (st.error_count : ℚ)) / ((max st.total_requests 1 : Nat) : ℚ)

/-- Counters after a sequence of `send_message` outcomes starting from the
freshly constructed client (all counters zero, `claude_client.py` lines
126-129). -/
def runCounters (outcomes : List (Except String Nat)) : ClaudeStats :=
  outcomes.foldl send_message_counters ⟨0, 0, 0⟩

/-! ## RequestQueue (`claude_client.py` lines 77-105)

`acquire_slot` is an async context manager: acquire the semaphore, increment
`active_requests` under the lock, run the body, and in the `finally` block
decrement `active_requests` (after which the `async with self.semaphore`
frame releases the permit).  Each in-flight request is therefore in one of
three phases between those four atomic transitions; the phases of all
requests plus the two counters form the shared state. -/

/-- Shared state of one `RequestQueue` plus the phase census of all in-flight
`acquire_slot` scopes.  `sem` is the semaphore's free-permit count;
`phaseA` counts scopes that hold a permit but have not yet incremented
`active_requests` (between lines 89 and 91); `phaseB` counts scopes inside
the body (after line 91, before line 97); `phaseC` counts scopes that have
decremented (line 97) but not yet released the permit.  `active` is the
`active_requests` attribute, a Python int. -/
structure QueueState where
  maxConcurrent : Nat
  sem : Nat
  phaseA : Nat
  phaseB : Nat
  phaseC : Nat
  active : Int
deriving DecidableEq, Repr

/-- `RequestQueue.__init__` (`claude_client.py` lines 80-84). -/
def initQueueState (maxConcurrent : Nat) : QueueState where
  maxConcurrent := maxConcurrent
  sem := maxConcurrent
  phaseA := 0
  phaseB := 0
  phaseC := 0
  active := 0

/-- Atomic transitions of `acquire_slot` scopes.  `exitBody` is the single
transition for every way the body can end — normal return, raised error, or
cancellation — because the `finally` block runs on all of them. -/
inductive QStep : QueueState → QueueState → Prop
  | enter (q : QueueState) (h : 0 < q.sem) :
      QStep q { q with sem := q.sem - 1, phaseA := q.phaseA + 1 }
  | incr (q : QueueState) (h : 0 < q.phaseA) :
      QStep q { q with phaseA := q.phaseA - 1, phaseB := q.phaseB + 1, active := q.active + 1 }
  | exitBody (q : QueueState) (h : 0 < q.phaseB) :
      QStep q { q with phaseB := q.phaseB - 1, phaseC := q.phaseC + 1, active := q.active - 1 }
  | release (q : QueueState) (h : 0 < q.phaseC) :
      QStep q { q with phaseC := q.phaseC - 1, sem := q.sem + 1 }

/-- Queue states reachable from construction with `maxConcurrent` slots. -/
inductive QReachable (maxConcurrent : Nat) : QueueState → Prop
  | init : QReachable maxConcurrent (initQueueState maxConcurrent)
  | step (q q2 : QueueState) : QReachable maxConcurrent q → QStep q q2 →
      QReachable maxConcurrent q2

/-- The `available_slots` field of `RequestQueue.get_queue_status`
(`claude_client.py` lines 99-105): `max_concurrent - active_requests` over
Python ints. -/
def get_queue_status_available_slots (q : QueueState) : Int :=
  (q.maxConcurrent : Int) - q.active

/-! ## RateLimiter (`claude_client.py` lines 45-74)

`acquire` takes the non-reentrant `asyncio.Lock` for its whole body.  When
the purged window is full it sleeps *while holding the lock* and then
recursively calls `acquire`, whose first action is to take the same lock
again.  One caller's execution is deterministic, so it is embedded as a step
function on an explicit program counter; `Option.none` means the caller can
take no further step (it is blocked on the lock, or finished). -/

/-- Program counter of one task executing `RateLimiter.acquire`. -/
inductive AcqPC
  | start
  | locked
  | sleeping (wakeTime : ℚ)
  | granted
deriving DecidableEq, Repr

/-- One caller's view of a `RateLimiter`: the limiter fields (`claude_client.py`
lines 48-52), how many `async with self._lock` frames this caller currently
holds, the current clock, and the caller's program counter. -/
structure RLState where
  maxRequests : Nat
  windowSeconds : ℚ
  requests : List ℚ
  heldFrames : Nat
  now : ℚ
  pc : AcqPC
deriving DecidableEq, Repr

/-- One atomic step of a single task executing `RateLimiter.acquire`
(`claude_client.py` lines 54-74), with no other lock contender:

* `start`: line 56 — `await self._lock.acquire()`.  `asyncio.Lock` is not
  reentrant, so this succeeds only when the caller holds no frame; a caller
  that already holds the lock blocks forever (no step).
* `locked`: lines 57-74 up to the next suspension — purge (lines 60-63),
  and either sleep (lines 66-70, keeping the lock) or append the timestamp
  and leave the `with` block, releasing one frame.
* `sleeping t`: line 70 returns at time `t`; line 71 then re-invokes
  `acquire`, i.e. the caller is back at `start` still holding its frame.
* `granted`: the call returned; nothing more to run. -/
def rlStep (s : RLState) : Option RLState :=
  match s.pc with
  | .start =>
      if s.heldFrames = 0 then some { s with heldFrames := 1, pc := .locked } else none
  | .locked =>
      let purged := s.requests.filter fun t => s.now - t < s.windowSeconds
      if s.maxRequests ≤ purged.length ∧ s.windowSeconds - (s.now - purged.head!) > 0 then
        some { s with requests := purged,
                      pc := .sleeping (s.now + (s.windowSeconds - (s.now - purged.head!))) }
      else
        some { s with requests := purged ++ [s.now], heldFrames := s.heldFrames - 1,
                      pc := .granted }
  | .sleeping wakeTime => some { s with now := wakeTime, pc := .start }
  | .granted => none

/-- Iterate `rlStep` for `n` steps; `none` once the caller is blocked or done
and asked to move again. -/
def rlIter : Nat → RLState → Option RLState
  | 0, s => some s
  | n + 1, s => (rlStep s).bind (rlIter n)

/-! ## Retry loops (`claude_client.py` lines 196-212, `multi_ai_client.py` lines 77-123)

Both retry loops have the same shape — `for attempt in range(retry_attempts)`,
return on success, re-raise the last failure on the final attempt, otherwise
sleep and continue — and differ only in the sleep-duration formula.
`results attempt` is the outcome of the provider call on attempt number
`attempt` (counting from 0); the returned list records the durations of the
sleeps performed, in order. -/

/-- The common retry loop, by recursion on the number of remaining attempts.
With 0 attempts the Python loops fall through (`_make_request` returns
`None`, `send_message` raises `None`); that degenerate case is modelled as an
immediate error and never reached from the default configuration. -/
def retryExec (delay : Nat → ℚ) (results : Nat → Except String α) :
    Nat → Nat → Except String α × List ℚ
  | _, 0 => (.error "no attempts configured", [])
  | attempt, 1 => (results attempt, [])
  | attempt, remaining + 2 =>
    match results attempt with
    | .ok v => (.ok v, [])
    | .error _ =>
        let rest := retryExec delay results (attempt + 1) (remaining + 1)
        (rest.1, delay attempt :: rest.2)

/-- The retry loop of `ClaudeClient._make_request` (`claude_client.py` lines
196-212): sleep `retry_delay * (2 ** attempt)` after failed attempt
`attempt` unless it was the last one, in which case the failure is re-raised
unmodified. -/
def _make_request (retry_attempts : Nat) (retry_delay : ℚ)
    (results : Nat → Except String α) : Except String α × List ℚ :=
  retryExec (fun attempt => retry_delay * 2 ^ attempt) results 0 retry_attempts

/-- The retry loop of `OpenAIClient.send_message` (`multi_ai_client.py` lines
77-123): same loop shape (`last_error` is re-raised after the loop, which is
observationally the final attempt's failure), but the sleep after failed
attempt `attempt` is `retry_delay * (attempt + 1)` — linear, not
exponential. -/
def openai_send_message (retry_attempts : Nat) (retry_delay : ℚ)
    (results : Nat → Except String α) : Except String α × List ℚ :=
  retryExec (fun attempt => retry_delay * ((attempt : ℚ) + 1)) results 0 retry_attempts

/-! ## MultiAIClient failover (`multi_ai_client.py` lines 195-257) -/

/-- `AIService` enum (`multi_ai_client.py` lines 21-24). -/
inductive AIService
  | openai
  | claude
deriving DecidableEq, Repr

/-- The fields of a `MultiAIClient` that `send_message` reads: which clients
were constructed, and the configured priority order. -/
structure MultiState where
  openai_available : Bool
  claude_available : Bool
  service_priority : List AIService
deriving DecidableEq, Repr

/-- `MultiAIClient._is_service_available` (`multi_ai_client.py` lines
251-257). -/
def _is_service_available (m : MultiState) : AIService → Bool
  | .openai => m.openai_available
  | .claude => m.claude_available

/-- The `services_to_try` list built by `MultiAIClient.send_message`
(`multi_ai_client.py` lines 204-212): the preferred service first when given
and available, then each service of `service_priority` not already listed. -/
def services_to_try (m : MultiState) (preferred : Option AIService) : List AIService :=
  let base :=
    match preferred with
    | some p => if _is_service_available m p then [p] else []
    | none => []
  m.service_priority.foldl (fun acc service =>
    if acc.contains service then acc else acc ++ [service]) base

/-- The failover loop of `MultiAIClient.send_message` (`multi_ai_client.py`
lines 214-249).  `call service` is the outcome of that service's underlying
`send_message`: `.ok content` or a raised error.  A service in the list whose
client is absent is skipped silently (the `if service == ... and client`
guards); any exception is recorded as `last_error` and the loop continues.
A successful call returns the content tagged with the answering service (the
OpenAI client tags `service=OPENAI`, the Claude conversion on lines 234-241
tags `service=CLAUDE`).  When the loop ends, line 249 raises an error
carrying whatever `last_error` holds. -/
def trySend (m : MultiState) (call : AIService → Except String String) :
    List AIService → Option String → Except (Option String) (String × AIService)
  | [], last_error => .error last_error
  | service :: rest, last_error =>
    if _is_service_available m service then
      match call service with
      | .ok content => .ok (content, service)
      | .error e => trySend m call rest (some e)
    else trySend m call rest last_error

/-- `MultiAIClient.send_message` (`multi_ai_client.py` lines 195-249). -/
def multi_send_message (m : MultiState) (call : AIService → Except String String)
    (preferred : Option AIService) : Except (Option String) (String × AIService) :=
  trySend m call (services_to_try m preferred) none

/-- Specification-side helper for stating C6: the error threaded through
`trySend` when every available candidate fails — the description of the last
available candidate's failure, or the accumulator if none is available. -/
def lastErrSpec (m : MultiState) (call : AIService → Except String String) :
    List AIService → Option String → Option String
  | [], acc => acc
  | service :: rest, acc =>
    if _is_service_available m service then
      match call service with
      | .error e => lastErrSpec m call rest (some e)
      | .ok _ => lastErrSpec m call rest acc
    else lastErrSpec m call rest acc

/-! ## Specification-side devices for C1

To state stability (equal-priority tasks keep submission order) each
submitted task is tagged with its submission index; `taggedInsert` is
`_insert_task_by_priority` lifted to tagged tasks, and the connection lemma
`buildTaggedQueue_map` identifies the tagged queue with the real one. -/

/-- `_insert_task_by_priority` on tasks tagged with their submission index
(the tag is ignored by the insertion logic, exactly as in the source). -/
def taggedInsert (queue : List (Nat × AgentTask)) (t : Nat × AgentTask) :
    List (Nat × AgentTask) :=
  let insertIndex :=
    queue.findIdx fun queued => priorityOrder t.2.priority < priorityOrder queued.2.priority
  queue.insertIdx insertIndex t

/-- The queue produced by accepting the submissions `ts` in order, each
insertion performed by `_insert_task_by_priority` as in `add_task`. -/
def queueFromSubmissions (ts : List AgentTask) : List AgentTask :=
  ts.foldl _insert_task_by_priority []

/-- As `queueFromSubmissions`, but remembering each task's submission index. -/
def buildTaggedQueue (ts : List AgentTask) : List (Nat × AgentTask) :=
  ts.enum.foldl taggedInsert []

/-- Priority-major, submission-order-minor ordering on tagged tasks. -/
def taggedLex (a b : Nat × AgentTask) : Prop :=
  priorityOrder a.2.priority < priorityOrder b.2.priority ∨
    (priorityOrder a.2.priority = priorityOrder b.2.priority ∧ a.1 < b.1)

lemma insert_task_nil (t : AgentTask) : _insert_task_by_priority [] t = [t] := rfl

lemma insert_task_cons (u : AgentTask) (rest : List AgentTask) (t : AgentTask) :
    _insert_task_by_priority (u :: rest) t =
      if priorityOrder t.priority < priorityOrder u.priority then t :: u :: rest
      else u :: _insert_task_by_priority rest t := by
  by_cases h : priorityOrder t.priority < priorityOrder u.priority <;>
    simp [_insert_task_by_priority, List.findIdx_cons, h, List.insertIdx_succ_cons]

lemma taggedInsert_nil (t : Nat × AgentTask) : taggedInsert [] t = [t] := rfl

lemma taggedInsert_cons (u : Nat × AgentTask) (rest : List (Nat × AgentTask))
    (t : Nat × AgentTask) :
    taggedInsert (u :: rest) t =
      if priorityOrder t.2.priority < priorityOrder u.2.priority then t :: u :: rest
      else u :: taggedInsert rest t := by
  by_cases h : priorityOrder t.2.priority < priorityOrder u.2.priority <;>
    simp [taggedInsert, List.findIdx_cons, h, List.insertIdx_succ_cons]

lemma taggedInsert_map_snd (queue : List (Nat × AgentTask)) (t : Nat × AgentTask) :
    (taggedInsert queue t).map Prod.snd =
      _insert_task_by_priority (queue.map Prod.snd) t.2 := by
  induction queue with
  | nil => simp [taggedInsert_nil, insert_task_nil]
  | cons u rest ih =>
      rw [taggedInsert_cons]
      by_cases h : priorityOrder t.2.priority < priorityOrder u.2.priority <;>
        simp [h, insert_task_cons, ih]

lemma mem_taggedInsert (queue : List (Nat × AgentTask)) (t x : Nat × AgentTask) :
    x ∈ taggedInsert queue t ↔ x = t ∨ x ∈ queue := by
  induction queue with
  | nil => simp [taggedInsert_nil]
  | cons u rest ih =>
      rw [taggedInsert_cons]
      by_cases h : priorityOrder t.2.priority < priorityOrder u.2.priority
      · simp [h]
      · simp only [h, if_false, List.mem_cons, ih]
        tauto

lemma taggedLex_priority_le (a b : Nat × AgentTask) (h : taggedLex a b) :
    priorityOrder a.2.priority ≤ priorityOrder b.2.priority := by
  rcases h with h | ⟨h, _⟩
  · exact Nat.le_of_lt h
  · exact Nat.le_of_eq h

lemma taggedInsert_pairwise (queue : List (Nat × AgentTask)) (n : Nat) (t : AgentTask)
    (hq : queue.Pairwise taggedLex) (hlt : ∀ x ∈ queue, x.1 < n) :
    (taggedInsert queue (n, t)).Pairwise taggedLex := by
  induction queue with
  | nil => simp [taggedInsert_nil]
  | cons u rest ih =>
      rw [List.pairwise_cons] at hq
      rw [taggedInsert_cons]
      by_cases h : priorityOrder t.priority < priorityOrder u.2.priority
      · rw [if_pos h]
        refine List.pairwise_cons.2 ⟨?_, List.pairwise_cons.2 ⟨hq.1, hq.2⟩⟩
        intro b hb
        rcases List.mem_cons.1 hb with hb | hb
        · subst hb; exact Or.inl h
        · exact Or.inl (Nat.lt_of_lt_of_le h (taggedLex_priority_le u b (hq.1 b hb)))
      · rw [if_neg h]
        refine List.pairwise_cons.2 ⟨?_, ?_⟩
        · intro b hb
          rcases (mem_taggedInsert rest (n, t) b).1 hb with hb | hb
          · subst hb
            rcases Nat.lt_or_ge (priorityOrder u.2.priority) (priorityOrder t.priority)
              with h2 | h2
            · exact Or.inl h2
            · exact Or.inr ⟨Nat.le_antisymm (Nat.le_of_not_lt h) h2,
                hlt u (List.mem_cons_self u rest)⟩
          · exact hq.1 b hb
        · exact ih hq.2 fun x hx => hlt x (List.mem_cons_of_mem u hx)

lemma mem_foldl_taggedInsert (ts : List (Nat × AgentTask)) :
    ∀ (queue : List (Nat × AgentTask)) (x : Nat × AgentTask),
      x ∈ ts.foldl taggedInsert queue → x ∈ queue ∨ x ∈ ts := by
  induction ts with
  | nil => intro queue x hx; exact Or.inl hx
  | cons t rest ih =>
      intro queue x hx
      rcases ih (taggedInsert queue t) x hx with hx | hx
      · rcases (mem_taggedInsert queue t x).1 hx with hx | hx
        · exact Or.inr (hx ▸ List.mem_cons_self t rest)
        · exact Or.inl hx
      · exact Or.inr (List.mem_cons_of_mem t hx)

lemma enumFrom_fst_lt (ts : List AgentTask) :
    ∀ (k : Nat) (x : Nat × AgentTask), x ∈ ts.enumFrom k → k ≤ x.1 ∧ x.1 < k + ts.length := by
  induction ts with
  | nil => intro k x hx; simp at hx
  | cons t rest ih =>
      intro k x hx
      rcases (List.mem_cons).1 hx with hx | hx
      · subst hx
        refine ⟨Nat.le_refl k, ?_⟩
        simp only [List.length_cons]
        omega
      · rcases ih (k + 1) x hx with ⟨h1, h2⟩
        refine ⟨Nat.le_of_succ_le h1, ?_⟩
        simp only [List.length_cons] at h2 ⊢
        omega

lemma foldl_taggedInsert_pairwise (ts : List AgentTask) :
    ∀ (k : Nat) (queue : List (Nat × AgentTask)),
      queue.Pairwise taggedLex → (∀ x ∈ queue, x.1 < k) →
      ((ts.enumFrom k).foldl taggedInsert queue).Pairwise taggedLex := by
  induction ts with
  | nil => intro k queue hq _; exact hq
  | cons t rest ih =>
      intro k queue hq hlt
      rw [List.enumFrom_cons, List.foldl_cons]
      refine ih (k + 1) (taggedInsert queue (k, t)) (taggedInsert_pairwise queue k t hq hlt) ?_
      intro x hx
      rcases (mem_taggedInsert queue (k, t) x).1 hx with hx | hx
      · subst hx; exact Nat.lt_succ_self k
      · exact Nat.lt_succ_of_lt (hlt x hx)

lemma buildTaggedQueue_pairwise (ts : List AgentTask) :
    (buildTaggedQueue ts).Pairwise taggedLex := by
  have h := foldl_taggedInsert_pairwise ts 0 [] List.Pairwise.nil (by intro x hx; simp at hx)
  simpa [buildTaggedQueue, List.enum] using h

lemma buildTaggedQueue_map (ts : List AgentTask) :
    (buildTaggedQueue ts).map Prod.snd = queueFromSubmissions ts := by
  have key : ∀ (l : List AgentTask) (k : Nat) (queue : List (Nat × AgentTask)),
      ((l.enumFrom k).foldl taggedInsert queue).map Prod.snd =
        l.foldl _insert_task_by_priority (queue.map Prod.snd) := by
    intro l
    induction l with
    | nil => intro k queue; rfl
    | cons t rest ih =>
        intro k queue
        rw [List.enumFrom_cons, List.foldl_cons, List.foldl_cons, ih (k + 1),
          taggedInsert_map_snd]
  have h := key ts 0 []
  simpa [buildTaggedQueue, queueFromSubmissions, List.enum] using h

lemma insert_task_takeWhile (q : List AgentTask) (t : AgentTask) :
    _insert_task_by_priority q t =
      (q.takeWhile fun u => decide (priorityOrder u.priority ≤ priorityOrder t.priority)) ++
        t :: (q.dropWhile fun u => decide (priorityOrder u.priority ≤ priorityOrder t.priority)) := by
  induction q with
  | nil => simp [insert_task_nil]
  | cons u rest ih =>
      rw [insert_task_cons]
      by_cases h : priorityOrder t.priority < priorityOrder u.priority
      · rw [if_pos h]
        rw [List.takeWhile_cons, List.dropWhile_cons]
        simp [Nat.not_le_of_lt h]
      · rw [if_neg h]
        rw [List.takeWhile_cons, List.dropWhile_cons]
        simp [Nat.le_of_not_lt h, ih]

/-- C1: starting from an empty queue, any sequence of accepted submissions
yields a queue that is priority-major (smaller `priority_order`, i.e. higher
priority, first) and submission-order-minor among equal priorities; each
accepted task is inserted immediately before the first queued task of
strictly lower priority; and `_process_next_task` removes tasks from the
front of the queue, so the dequeued task is always of highest remaining
priority, earliest-submitted among equals. -/
theorem C1_priority_queue_order (ts : List AgentTask) (q : List AgentTask)
    (t : AgentTask) (s : AgentState) (task : AgentTask) (rest : List AgentTask) :
    (buildTaggedQueue ts).Pairwise taggedLex
    ∧ (buildTaggedQueue ts).map Prod.snd = queueFromSubmissions ts
    ∧ _insert_task_by_priority q t =
        (q.takeWhile fun u => decide (priorityOrder u.priority ≤ priorityOrder t.priority)) ++
          t :: (q.dropWhile fun u => decide (priorityOrder u.priority ≤ priorityOrder t.priority))
    ∧ ((add_task s t).1 = true →
        (add_task s t).2.task_queue = _insert_task_by_priority s.task_queue t)
    ∧ (startProcess { s with task_queue := task :: rest, status := .idle }).task_queue = rest
    ∧ (startProcess { s with task_queue := task :: rest, status := .idle }).current_task
        = some task := by
  refine ⟨buildTaggedQueue_pairwise ts, buildTaggedQueue_map ts,
    insert_task_takeWhile q t, ?_, rfl, rfl⟩
  intro h
  unfold add_task at h ⊢
  by_cases hdep : _check_dependencies s.results_history t
  · simp [hdep]
  · simp [hdep] at h

/-- Witness for C1 at a concrete input: submissions LOW, HIGH, MEDIUM, HIGH
end up queued HIGH, HIGH, MEDIUM, LOW with the two HIGH tasks in submission
order, and the accepted-insertion hypothesis discharged on a concrete
state. -/
theorem C1_priority_queue_order_witness :
    (buildTaggedQueue
        [⟨"a", .low, []⟩, ⟨"b", .high, []⟩, ⟨"c", .medium, []⟩, ⟨"d", .high, []⟩]).Pairwise
        taggedLex
    ∧ (add_task (initialAgentState "agent") ⟨"b", .high, []⟩).1 = true
    ∧ (add_task (initialAgentState "agent") ⟨"b", .high, []⟩).2.task_queue =
        _insert_task_by_priority (initialAgentState "agent").task_queue ⟨"b", .high, []⟩ := by
  refine ⟨(C1_priority_queue_order
      [⟨"a", .low, []⟩, ⟨"b", .high, []⟩, ⟨"c", .medium, []⟩, ⟨"d", .high, []⟩]
      [] ⟨"b", .high, []⟩ (initialAgentState "agent") ⟨"b", .high, []⟩ []).1, by decide, ?_⟩
  exact (C1_priority_queue_order
      [⟨"a", .low, []⟩, ⟨"b", .high, []⟩, ⟨"c", .medium, []⟩, ⟨"d", .high, []⟩]
      [] ⟨"b", .high, []⟩ (initialAgentState "agent") ⟨"b", .high, []⟩ []).2.2.2.1 (by decide)

/-! ## C2: dependency gating -/

lemma check_dependencies_iff (history : List AgentResult) (t : AgentTask) :
    _check_dependencies history t = true ↔
      ∀ d ∈ t.dependencies, ∃ r ∈ history, r.success = true ∧ r.task_id = d := by
  unfold _check_dependencies
  simp only [List.all_eq_true, List.any_eq_true, List.mem_filter, beq_iff_eq]
  constructor
  · intro h d hd
    rcases h d hd with ⟨r, ⟨hr, hs⟩, hid⟩
    exact ⟨r, hr, hs, hid⟩
  · intro h d hd
    rcases h d hd with ⟨r, hr, hs, hid⟩
    exact ⟨r, ⟨hr, hs⟩, hid⟩

/-- C2: `add_task` returns `false` and leaves the state unchanged exactly
when some declared dependency id is not the `task_id` of a `success = true`
result already in `results_history`; when every dependency id is matched it
returns `true` and enqueues the task (by priority insertion). -/
theorem C2_dependency_gating (s : AgentState) (t : AgentTask) :
    ((add_task s t).1 = false ↔
      ∃ d ∈ t.dependencies, ∀ r ∈ s.results_history, r.success = true → r.task_id ≠ d)
    ∧ ((add_task s t).1 = false → (add_task s t).2 = s)
    ∧ ((add_task s t).1 = true →
        (add_task s t).2 = { s with task_queue := _insert_task_by_priority s.task_queue t }) := by
  unfold add_task
  by_cases hdep : _check_dependencies s.results_history t = true
  · rw [if_pos hdep]
    rw [check_dependencies_iff] at hdep
    refine ⟨?_, ?_, fun _ => rfl⟩
    · constructor
      · intro h; simp at h
      · rintro ⟨d, hd, hall⟩
        rcases hdep d hd with ⟨r, hr, hs, hid⟩
        exact ((hall r hr hs) hid).elim
    · intro h; simp at h
  · rw [if_neg hdep]
    have hdep2 := hdep
    rw [check_dependencies_iff] at hdep2
    push_neg at hdep2
    refine ⟨?_, fun _ => rfl, ?_⟩
    · constructor
      · intro _
        rcases hdep2 with ⟨d, hd, hall⟩
        exact ⟨d, hd, hall⟩
      · intro _; rfl
    · intro h; simp at h

/-- Witness for C2: with `tdep` depending on "x", a fresh agent rejects it
unchanged; after a successful result for "x" is in the history, it is
accepted and enqueued. -/
theorem C2_dependency_gating_witness :
    (add_task (initialAgentState "agent") ⟨"t", .medium, ["x"]⟩).1 = false
    ∧ (add_task (initialAgentState "agent") ⟨"t", .medium, ["x"]⟩).2 =
        initialAgentState "agent"
    ∧ (add_task
        { initialAgentState "agent" with
          results_history :=
            [⟨"x", "agent", "text", true, none, none, none⟩] }
        ⟨"t", .medium, ["x"]⟩).1 = true := by
  refine ⟨?_, ?_, ?_⟩
  · exact (C2_dependency_gating (initialAgentState "agent") ⟨"t", .medium, ["x"]⟩).1.mpr
      (by decide)
  · exact (C2_dependency_gating (initialAgentState "agent") ⟨"t", .medium, ["x"]⟩).2.1
      (by decide)
  · by_contra h
    have h2 := (C2_dependency_gating
      { initialAgentState "agent" with
        results_history := [⟨"x", "agent", "text", true, none, none, none⟩] }
      ⟨"t", .medium, ["x"]⟩).1.mp (by revert h; decide)
    revert h2; decide

/-! ## C7: the processing loop absorbs exceptions -/

lemma process_next_task_eq (s : AgentState) (run : AgentTask → Except String AgentResult)
    (ptime : ℚ) (task : AgentTask) (rest : List AgentTask)
    (hq : s.task_queue = task :: rest) (hs : s.status = .idle) :
    _process_next_task s run ptime = finishProcess (startProcess s) (run task) ptime := by
  unfold _process_next_task
  rw [hq, hs]

lemma startProcess_eq (s : AgentState) (task : AgentTask) (rest : List AgentTask)
    (hq : s.task_queue = task :: rest) (hs : s.status = .idle) :
    startProcess s =
      { s with task_queue := rest, current_task := some task, status := .working } := by
  unfold startProcess
  rw [hq, hs]

/-- C7: whenever the extension point `_process_task` raises, the agent's
`_process_next_task` does not propagate it (it is a total state transformer):
exactly one result is appended to `results_history`, `current_task` is reset
to `none`, the status returns to IDLE with the rest of the queue intact (so
the next task can be scheduled), and on the exception path the appended
result records `success = false` with the error's description. -/
theorem C7_exceptions_absorbed (s : AgentState)
    (run : AgentTask → Except String AgentResult) (ptime : ℚ)
    (task : AgentTask) (rest : List AgentTask)
    (hq : s.task_queue = task :: rest) (hs : s.status = .idle) :
    ∃ r, (_process_next_task s run ptime).results_history = s.results_history ++ [r]
    ∧ (_process_next_task s run ptime).current_task = none
    ∧ (_process_next_task s run ptime).status = .idle
    ∧ (_process_next_task s run ptime).task_queue = rest
    ∧ (∀ e, run task = .error e →
        r.success = false ∧ r.error_message = some e ∧ r.task_id = task.task_id) := by
  rw [process_next_task_eq s run ptime task rest hq hs,
    startProcess_eq s task rest hq hs]
  cases hrun : run task with
  | ok result0 =>
      refine ⟨{ result0 with processing_time := some ptime, agent_id := s.agent_id },
        ?_, ?_, ?_, ?_, ?_⟩
      · simp [finishProcess, _update_statistics]
      · simp [finishProcess, _update_statistics]
      · simp [finishProcess, _update_statistics]
      · simp [finishProcess, _update_statistics]
      · intro e he
        simp at he
  | error e0 =>
      refine ⟨{ task_id := task.task_id, agent_id := s.agent_id, result_type := "error",
                success := false, error_message := some e0, processing_time := none,
                quality_score := none }, ?_, ?_, ?_, ?_, ?_⟩
      · simp [finishProcess]
      · simp [finishProcess]
      · simp [finishProcess]
      · simp [finishProcess]
      · intro e he
        cases he
        exact ⟨rfl, rfl, rfl⟩

/-- Witness for C7: a fresh agent with one queued task whose processing
raises "boom" ends idle with that failure recorded. -/
theorem C7_exceptions_absorbed_witness :
    ∃ r, (_process_next_task
        { initialAgentState "agent" with task_queue := [⟨"t1", .medium, []⟩] }
        (fun _ => .error "boom") 1).results_history =
          (initialAgentState "agent").results_history ++ [r]
    ∧ (_process_next_task
        { initialAgentState "agent" with task_queue := [⟨"t1", .medium, []⟩] }
        (fun _ => .error "boom") 1).current_task = none
    ∧ (_process_next_task
        { initialAgentState "agent" with task_queue := [⟨"t1", .medium, []⟩] }
        (fun _ => .error "boom") 1).status = .idle
    ∧ (_process_next_task
        { initialAgentState "agent" with task_queue := [⟨"t1", .medium, []⟩] }
        (fun _ => .error "boom") 1).task_queue = []
    ∧ (∀ e, (fun (_ : AgentTask) => Except.error (ε := String) (α := AgentResult) "boom")
          ⟨"t1", .medium, []⟩ = .error e →
        r.success = false ∧ r.error_message = some e ∧ r.task_id = "t1") := by
  have h := C7_exceptions_absorbed
    { initialAgentState "agent" with task_queue := [⟨"t1", .medium, []⟩] }
    (fun _ => .error "boom") 1 ⟨"t1", .medium, []⟩ [] rfl rfl
  rcases h with ⟨r, h1, h2, h3, h4, h5⟩
  exact ⟨r, h1, h2, h3, h4, h5⟩

/-! ## C8: statistics versus the result history -/

/-- The agent state reached by a fresh agent processing one task whose
`_process_task` raised: the exception path of `_process_next_task`. -/
def c8FailState : AgentState :=
  _process_next_task
    { initialAgentState "agent" with task_queue := [⟨"t1", .medium, []⟩] }
    (fun _ => .error "boom") 1

/-- Counterexample to C8 as stated: after an exception-path completion the
history holds one failed result, so recomputing from the full history gives
success rate 0/1 = 0 and completed count 1, but the agent's stored
`success_rate` still holds its initial value 1 and `total_tasks_completed`
is still 0 — the statistics were not recomputed after this completion. -/
theorem C8_statistics_counterexample :
    c8FailState.results_history.length = 1
    ∧ (c8FailState.results_history.filter fun r => r.success).length = 0
    ∧ c8FailState.success_rate = 1
    ∧ c8FailState.success_rate ≠
        ((c8FailState.results_history.filter fun r => r.success).length : ℚ) /
          (c8FailState.results_history.length : ℚ)
    ∧ c8FailState.total_tasks_completed = 0 := by
  refine ⟨by decide, by decide, by decide, ?_, by decide⟩
  intro h
  rw [show (c8FailState.results_history.filter fun r => r.success).length = 0 from by decide,
    show c8FailState.results_history.length = 1 from by decide,
    show c8FailState.success_rate = 1 from by decide] at h
  norm_num at h

/-- C8 amended: after a completion in which `_process_task` *returns* a
Result (with `success` true or false), the statistics are recomputed as pure
functions of the full history — `success_rate` is the number of successful
results over the total, `average_quality_score` the mean of non-null quality
scores whenever any exist, and the completed count increments — but after an
exception-path completion, the error result is appended to the history while
every statistics field stays unchanged. -/
theorem C8_statistics_recomputed (s : AgentState)
    (run : AgentTask → Except String AgentResult) (ptime : ℚ)
    (task : AgentTask) (rest : List AgentTask)
    (hq : s.task_queue = task :: rest) (hs : s.status = .idle) :
    (∀ result0, run task = .ok result0 →
      (_process_next_task s run ptime).success_rate =
          (((_process_next_task s run ptime).results_history.filter
              fun r => r.success).length : ℚ) /
            ((_process_next_task s run ptime).results_history.length : ℚ)
      ∧ (((_process_next_task s run ptime).results_history.filterMap
            fun r => r.quality_score) ≠ [] →
          (_process_next_task s run ptime).average_quality_score =
            ((_process_next_task s run ptime).results_history.filterMap
                fun r => r.quality_score).sum /
              (((_process_next_task s run ptime).results_history.filterMap
                  fun r => r.quality_score).length : ℚ))
      ∧ (_process_next_task s run ptime).total_tasks_completed
          = s.total_tasks_completed + 1)
    ∧ (∀ e, run task = .error e →
        (_process_next_task s run ptime).success_rate = s.success_rate
        ∧ (_process_next_task s run ptime).average_quality_score
            = s.average_quality_score
        ∧ (_process_next_task s run ptime).total_tasks_completed
            = s.total_tasks_completed
        ∧ (_process_next_task s run ptime).results_history.length
            = s.results_history.length + 1) := by
  rw [process_next_task_eq s run ptime task rest hq hs,
    startProcess_eq s task rest hq hs]
  constructor
  · intro result0 hrun
    rw [hrun]
    refine ⟨?_, ?_, ?_⟩
    · simp [finishProcess, _update_statistics]
    · intro hne
      simp only [finishProcess, _update_statistics] at hne ⊢
      simp only [if_neg hne]
    · simp [finishProcess, _update_statistics]
  · intro e hrun
    rw [hrun]
    refine ⟨rfl, rfl, rfl, ?_⟩
    simp [finishProcess]

/-- Witness for C8 amended: both branches instantiated — a success-path
completion on a fresh agent yields `success_rate = 1/1`, and an exception
path on a fresh agent leaves the statistics at their initial values. -/
theorem C8_statistics_recomputed_witness :
    (_process_next_task
        { initialAgentState "agent" with task_queue := [⟨"t1", .medium, []⟩] }
        (fun t => .ok ⟨t.task_id, "", "text", true, none, none, none⟩) 1).success_rate =
      (((_process_next_task
          { initialAgentState "agent" with task_queue := [⟨"t1", .medium, []⟩] }
          (fun t => .ok ⟨t.task_id, "", "text", true, none, none, none⟩) 1).results_history.filter
            fun r => r.success).length : ℚ) /
        (((_process_next_task
            { initialAgentState "agent" with task_queue := [⟨"t1", .medium, []⟩] }
            (fun t => .ok ⟨t.task_id, "", "text", true, none, none, none⟩)
            1).results_history.length : ℚ))
    ∧ c8FailState.success_rate = (initialAgentState "agent").success_rate := by
  constructor
  · exact ((C8_statistics_recomputed
        { initialAgentState "agent" with task_queue := [⟨"t1", .medium, []⟩] }
        (fun t => .ok ⟨t.task_id, "", "text", true, none, none, none⟩) 1
        ⟨"t1", .medium, []⟩ [] rfl rfl).1
      ⟨"t1", "", "text", true, none, none, none⟩ rfl).1
  · exact ((C8_statistics_recomputed
        { initialAgentState "agent" with task_queue := [⟨"t1", .medium, []⟩] }
        (fun _ => .error "boom") 1 ⟨"t1", .medium, []⟩ [] rfl rfl).2 "boom" rfl).1

/-! ## C9: current_task versus WORKING -/

/-- The state reached by: accept one task, start processing it, then `pause`
while the `_process_task` call is in flight. -/
def c9PausedState : AgentState :=
  pause (startProcess (add_task (initialAgentState "agent") ⟨"t1", .medium, []⟩).2)

/-- Counterexample to C9 as stated: the interleaving add_task; start of
`_process_next_task`; `pause` (taken during the in-flight `await`) reaches a
state whose `current_task` is non-null while the status is PAUSED, not
WORKING — `pause` (lines 314-318) changes the status but never clears
`current_task`. -/
theorem C9_current_task_iff_counterexample :
    ReachableAgent "agent" c9PausedState
    ∧ c9PausedState.current_task = some ⟨"t1", .medium, []⟩
    ∧ c9PausedState.status = .paused
    ∧ ¬(c9PausedState.current_task ≠ none ↔ c9PausedState.status = .working) := by
  refine ⟨?_, by decide, by decide, by decide⟩
  exact ReachableAgent.step _ .pause
    (ReachableAgent.step _ .startProcess
      (ReachableAgent.step _ (.addTask ⟨"t1", .medium, []⟩)
        (@ReachableAgent.init "agent")))

lemma add_task_preserves_status_current (s : AgentState) (t : AgentTask) :
    (add_task s t).2.status = s.status ∧ (add_task s t).2.current_task = s.current_task := by
  unfold add_task
  by_cases h : _check_dependencies s.results_history t = true
  · rw [if_pos h]; exact ⟨rfl, rfl⟩
  · rw [if_neg h]; exact ⟨rfl, rfl⟩

/-- C9 amended: across every state reachable by any interleaving of the
agent's operations, status WORKING implies `current_task` is non-null.  The
converse is false (see the counterexample): `pause` and `resume` can leave a
non-null `current_task` with a status other than WORKING. -/
theorem C9_working_implies_current_task (agent_id : String) (s : AgentState)
    (h : ReachableAgent agent_id s) :
    s.status = .working → s.current_task ≠ none := by
  induction h with
  | init =>
      intro hw
      simp [initialAgentState] at hw
  | step s2 op _ ih =>
      cases op with
      | addTask t =>
          intro hw
          rcases add_task_preserves_status_current s2 t with ⟨h1, h2⟩
          rw [applyOp] at hw ⊢
          rw [h2]
          exact ih (h1 ▸ hw)
      | startProcess =>
          rw [applyOp]
          unfold startProcess
          match hq : s2.task_queue, hs : s2.status with
          | [], _ => intro hw; exact ih hw
          | task :: rest, .idle => intro _; simp
          | task :: rest, .working => intro hw; exact ih hw
          | task :: rest, .completed => intro hw; exact ih hw
          | task :: rest, .error => intro hw; exact ih hw
          | task :: rest, .paused => intro hw; exact ih hw
      | finishProcess outcome ptime =>
          rw [applyOp]
          unfold finishProcess
          match hc : s2.current_task with
          | none => intro hw; exact ih hw
          | some task =>
              cases outcome with
              | ok result0 => intro hw; simp [_update_statistics] at hw
              | error e => intro hw; simp at hw
      | pause =>
          rw [applyOp]
          unfold pause
          by_cases hp : s2.status = .working
          · rw [if_pos hp]
            intro hw
            simp at hw
          · rw [if_neg hp]
            exact ih
      | resume =>
          rw [applyOp]
          unfold resume
          by_cases hp : s2.status = .paused
          · rw [if_pos hp]
            intro hw
            simp at hw
          · rw [if_neg hp]
            exact ih

/-- Witness for C9 amended: the concrete reachable WORKING state after
accepting and starting one task has a non-null `current_task`. -/
theorem C9_working_implies_current_task_witness :
    (startProcess (add_task (initialAgentState "agent") ⟨"t1", .medium, []⟩).2).current_task
      ≠ none := by
  exact C9_working_implies_current_task "agent"
    (startProcess (add_task (initialAgentState "agent") ⟨"t1", .medium, []⟩).2)
    (ReachableAgent.step _ .startProcess
      (ReachableAgent.step _ (.addTask ⟨"t1", .medium, []⟩)
        (@ReachableAgent.init "agent")))
    (by decide)

/-! ## C4: concurrency-slot safety -/

lemma qreachable_invariant (N : Nat) (q : QueueState) (h : QReachable N q) :
    q.maxConcurrent = N
    ∧ q.sem + q.phaseA + q.phaseB + q.phaseC = N
    ∧ q.active = (q.phaseB : Int) := by
  induction h with
  | init => simp [initQueueState]
  | step q q2 _ hstep ih =>
      rcases ih with ⟨ih1, ih2, ih3⟩
      cases hstep with
      | enter hsem => refine ⟨?_, ?_, ?_⟩ <;> dsimp only <;> omega
      | incr hA => refine ⟨?_, ?_, ?_⟩ <;> dsimp only <;> omega
      | exitBody hB => refine ⟨?_, ?_, ?_⟩ <;> dsimp only <;> omega
      | release hC => refine ⟨?_, ?_, ?_⟩ <;> dsimp only <;> omega

/-- C4: in every reachable state of a `RequestQueue` with `N` slots,
`active_requests` equals the number of scopes currently inside an
`acquire_slot` body, hence stays between 0 and `max_concurrent`;
`get_queue_status` reports `available_slots = max_concurrent -
active_requests`; and whenever a body is in flight its `finally` transition
(which covers normal return, error and cancellation alike) is enabled, as is
the permit release after it — so no exit path can leak a slot. -/
theorem C4_slot_bounds (N : Nat) (q : QueueState) (h : QReachable N q) :
    0 ≤ q.active
    ∧ q.active ≤ (N : Int)
    ∧ q.active = (q.phaseB : Int)
    ∧ get_queue_status_available_slots q = (q.maxConcurrent : Int) - q.active
    ∧ (0 < q.phaseB →
        QStep q { q with phaseB := q.phaseB - 1, phaseC := q.phaseC + 1,
                         active := q.active - 1 })
    ∧ (0 < q.phaseC → QStep q { q with phaseC := q.phaseC - 1, sem := q.sem + 1 }) := by
  rcases qreachable_invariant N q h with ⟨h1, h2, h3⟩
  refine ⟨by omega, by omega, h3, rfl, fun hB => QStep.exitBody q hB,
    fun hC => QStep.release q hC⟩

/-- Witness for C4: with two slots, after one scope has entered and
incremented, the reachable state has `active = 1` within bounds. -/
theorem C4_slot_bounds_witness :
    0 ≤ ({ maxConcurrent := 2, sem := 1, phaseA := 0, phaseB := 1, phaseC := 0,
           active := 1 } : QueueState).active
    ∧ ({ maxConcurrent := 2, sem := 1, phaseA := 0, phaseB := 1, phaseC := 0,
         active := 1 } : QueueState).active ≤ ((2 : Nat) : Int) := by
  have hreach : QReachable 2
      { maxConcurrent := 2, sem := 1, phaseA := 0, phaseB := 1, phaseC := 0,
        active := 1 } := by
    have h0 := @QReachable.init 2
    have h1 := QReachable.step _ _ h0 (QStep.enter (initQueueState 2) (by decide))
    have h2 := QReachable.step _ _ h1
      (QStep.incr { maxConcurrent := 2, sem := 1, phaseA := 1, phaseB := 0, phaseC := 0,
                    active := 0 } (by decide))
    exact h2
  have h := C4_slot_bounds 2 _ hreach
  exact ⟨h.1, h.2.1⟩

/-! ## C10: ClaudeClient counter asymmetry -/

/-- Whether a `send_message` outcome was a success. -/
def isOkOutcome : Except String Nat → Bool
  | .ok _ => true
  | .error _ => false

lemma runCounters_fold (outs : List (Except String Nat)) :
    ∀ st : ClaudeStats,
      (outs.foldl send_message_counters st).total_requests
          = st.total_requests + outs.countP isOkOutcome
      ∧ (outs.foldl send_message_counters st).error_count
          = st.error_count + outs.countP fun o => !isOkOutcome o := by
  induction outs with
  | nil => intro st; simp
  | cons o rest ih =>
      intro st
      rcases ih (send_message_counters st o) with ⟨ih1, ih2⟩
      cases o with
      | ok tokens =>
          refine ⟨?_, ?_⟩
          · rw [List.foldl_cons, ih1]
            simp [send_message_counters, List.countP_cons, isOkOutcome]
            omega
          · rw [List.foldl_cons, ih2]
            simp [send_message_counters, List.countP_cons, isOkOutcome]
      | error e =>
          refine ⟨?_, ?_⟩
          · rw [List.foldl_cons, ih1]
            simp [send_message_counters, List.countP_cons, isOkOutcome]
          · rw [List.foldl_cons, ih2]
            simp [send_message_counters, List.countP_cons, isOkOutcome]
            omega

/-- C10: `send_message` updates the counters asymmetrically — a raising call
increments only `error_count`, a successful call increments `total_requests`
and adds the response's total tokens without touching `error_count` — so
after any call sequence `total_requests` counts only the successful calls,
`error_count` only the failed ones, and `get_statistics`' success rate
`(total_requests - error_count) / max(total_requests, 1)` divides by the
successful-call count and is negative whenever failures outnumber
successes. -/
theorem C10_counter_asymmetry (st : ClaudeStats) (e : String) (tokens : Nat)
    (outs : List (Except String Nat)) :
    (send_message_counters st (.error e)).total_requests = st.total_requests
    ∧ (send_message_counters st (.error e)).total_tokens_used = st.total_tokens_used
    ∧ (send_message_counters st (.error e)).error_count = st.error_count + 1
    ∧ (send_message_counters st (.ok tokens)).total_requests = st.total_requests + 1
    ∧ (send_message_counters st (.ok tokens)).total_tokens_used
        = st.total_tokens_used + tokens
    ∧ (send_message_counters st (.ok tokens)).error_count = st.error_count
    ∧ (runCounters outs).total_requests = outs.countP isOkOutcome
    ∧ (runCounters outs).error_count = outs.countP (fun o => !isOkOutcome o)
    ∧ get_statistics_success_rate (runCounters outs) =
        ((outs.countP isOkOutcome : ℚ) - (outs.countP (fun o => !isOkOutcome o) : ℚ)) /
          ((max (outs.countP isOkOutcome) 1 : Nat) : ℚ)
    ∧ (outs.countP isOkOutcome < outs.countP (fun o => !isOkOutcome o) →
        get_statistics_success_rate (runCounters outs) < 0) := by
  rcases runCounters_fold outs ⟨0, 0, 0⟩ with ⟨h1, h2⟩
  have hreq : (runCounters outs).total_requests = outs.countP isOkOutcome := by
    simpa [runCounters] using h1
  have herr : (runCounters outs).error_count = outs.countP (fun o => !isOkOutcome o) := by
    simpa [runCounters] using h2
  have hrate : get_statistics_success_rate (runCounters outs) =
      ((outs.countP isOkOutcome : ℚ) - (outs.countP (fun o => !isOkOutcome o) : ℚ)) /
        ((max (outs.countP isOkOutcome) 1 : Nat) : ℚ) := by
    rw [get_statistics_success_rate, hreq, herr]
  refine ⟨rfl, rfl, rfl, rfl, rfl, rfl, hreq, herr, hrate, ?_⟩
  intro hlt
  rw [hrate]
  apply div_neg_of_neg_of_pos
  · have hcast : (outs.countP isOkOutcome : ℚ) <
        (outs.countP (fun o => !isOkOutcome o) : ℚ) := by
      exact_mod_cast hlt
    linarith
  · have hmax : 1 ≤ max (outs.countP isOkOutcome) 1 := le_max_right _ _
    exact_mod_cast Nat.lt_of_lt_of_le Nat.zero_lt_one hmax

/-- Witness for C10: two failures and one success give success rate
`(1 - 2) / 1 = -1 < 0`. -/
theorem C10_counter_asymmetry_witness :
    get_statistics_success_rate
      (runCounters [.error "e1", .error "e2", .ok 5]) < 0 := by
  exact (C10_counter_asymmetry ⟨0, 0, 0⟩ "e" 0
    [.error "e1", .error "e2", .ok 5]).2.2.2.2.2.2.2.2.2 (by decide)

/-! ## C3: RateLimiter admission -/

/-- A `RateLimiter(max_requests=1, window_seconds=60)` holding one timestamp
recorded at time 0, with a second caller invoking `acquire()` at time 10. -/
def c3Init : RLState where
  maxRequests := 1
  windowSeconds := 60
  requests := [0]
  heldFrames := 0
  now := 10
  pc := .start

/-- The state that second caller reaches: back at the recursive
`acquire()` call of line 71 while still holding the lock frame taken on
line 56 — from which `rlStep` offers no further step. -/
def c3Stuck : RLState where
  maxRequests := 1
  windowSeconds := 60
  requests := [0]
  heldFrames := 1
  now := 60
  pc := .start

/-- C3: on the concrete input of `c3Init` the caller is never admitted.  Its
deterministic execution — take the lock, find the window full, sleep 50
time-units while holding the lock, recursively re-enter `acquire` — reaches
`c3Stuck` in three steps, where re-acquiring the already-held non-reentrant
lock blocks forever: no state reachable in any number of steps has
`pc = granted`, and `c3Stuck` has no successor. -/
theorem C3_rate_limiter_deadlock :
    (∀ (n : Nat) (s2 : RLState), rlIter n c3Init = some s2 → s2.pc ≠ .granted)
    ∧ rlIter 3 c3Init = some c3Stuck
    ∧ rlStep c3Stuck = none
    ∧ c3Stuck.heldFrames = 1 := by
  have h1 : rlStep c3Init = some { c3Init with heldFrames := 1, pc := .locked } := by
    norm_num [rlStep, c3Init]
  have h2 : rlStep { c3Init with heldFrames := 1, pc := .locked } =
      some { c3Init with heldFrames := 1, pc := .sleeping 60 } := by
    norm_num [rlStep, c3Init]
  have h3 : rlStep { c3Init with heldFrames := 1, pc := .sleeping 60 } =
      some c3Stuck := by
    norm_num [rlStep, c3Init, c3Stuck]
  have hstuck : rlStep c3Stuck = none := by norm_num [rlStep, c3Stuck]
  have hstep3 : rlIter 3 c3Init = some c3Stuck := by
    show (rlStep c3Init).bind (rlIter 2) = some c3Stuck
    rw [h1]
    show (rlStep { c3Init with heldFrames := 1, pc := .locked }).bind (rlIter 1)
        = some c3Stuck
    rw [h2]
    show (rlStep { c3Init with heldFrames := 1, pc := .sleeping 60 }).bind (rlIter 0)
        = some c3Stuck
    rw [h3]
    rfl
  refine ⟨?_, hstep3, hstuck, rfl⟩
  have hshift : ∀ n : Nat, rlIter (n + 3) c3Init = rlIter n c3Stuck := by
    intro n
    show (rlStep c3Init).bind (rlIter (n + 2)) = rlIter n c3Stuck
    rw [h1]
    show (rlStep { c3Init with heldFrames := 1, pc := .locked }).bind (rlIter (n + 1))
        = rlIter n c3Stuck
    rw [h2]
    show (rlStep { c3Init with heldFrames := 1, pc := .sleeping 60 }).bind (rlIter n)
        = rlIter n c3Stuck
    rw [h3]
    rfl
  intro n s2 h
  match n with
  | 0 =>
      rw [show rlIter 0 c3Init = some c3Init from rfl] at h
      cases h
      decide
  | 1 =>
      have hit : rlIter 1 c3Init = some { c3Init with heldFrames := 1, pc := .locked } := by
        show (rlStep c3Init).bind (rlIter 0) = _
        rw [h1]
        rfl
      rw [hit] at h
      cases h
      decide
  | 2 =>
      have hit : rlIter 2 c3Init =
          some { c3Init with heldFrames := 1, pc := .sleeping 60 } := by
        show (rlStep c3Init).bind (rlIter 1) = _
        rw [h1]
        show (rlStep { c3Init with heldFrames := 1, pc := .locked }).bind (rlIter 0) = _
        rw [h2]
        rfl
      rw [hit] at h
      cases h
      decide
  | m + 3 =>
      rw [hshift m] at h
      match m with
      | 0 =>
          rw [show rlIter 0 c3Stuck = some c3Stuck from rfl] at h
          cases h
          decide
      | k + 1 =>
          rw [show rlIter (k + 1) c3Stuck = (rlStep c3Stuck).bind (rlIter k) from rfl,
            hstuck] at h
          cases h

/-- Witness for C3: the never-admitted property applied at the concrete
blocked state after three steps. -/
theorem C3_rate_limiter_deadlock_witness : c3Stuck.pc ≠ .granted := by
  exact C3_rate_limiter_deadlock.1 3 c3Stuck C3_rate_limiter_deadlock.2.1

/-! ## C5: retry attempts and backoff schedule -/

lemma range_map_shift (f : Nat → ℚ) (a k : Nat) :
    f a :: ((List.range k).map fun j => f (a + 1 + j)) =
      (List.range (k + 1)).map fun j => f (a + j) := by
  rw [List.range_succ_eq_map, List.map_cons, List.map_map]
  have hfun : ((fun j => f (a + j)) ∘ Nat.succ) = fun j => f (a + 1 + j) := by
    funext j
    simp only [Function.comp]
    congr 1
    omega
  rw [hfun]
  simp

lemma retryExec_all_fail (delay : Nat → ℚ) (err : Nat → String) (results : Nat → Except String α)
    (herr : ∀ j, results j = .error (err j)) :
    ∀ (remaining attempt : Nat), 1 ≤ remaining →
      retryExec delay results attempt remaining =
        (.error (err (attempt + remaining - 1)),
          (List.range (remaining - 1)).map fun j => delay (attempt + j)) := by
  intro remaining
  induction remaining with
  | zero => intro attempt h; cases h
  | succ rem ih =>
      intro attempt _
      cases rem with
      | zero =>
          simp only [retryExec, herr attempt]
          simp
      | succ rem2 =>
          have hrec := ih (attempt + 1) (Nat.le_add_left 1 rem2)
          simp only [retryExec, herr attempt, hrec]
          rw [show attempt + 1 + (rem2 + 1) - 1 = attempt + (rem2 + 1 + 1) - 1 from by omega,
            show rem2 + 1 - 1 = rem2 from by omega,
            show rem2 + 1 + 1 - 1 = rem2 + 1 from by omega,
            range_map_shift delay attempt rem2]

lemma retryExec_first_success (delay : Nat → ℚ) (results : Nat → Except String α) (v : α) :
    ∀ (k remaining attempt : Nat), k < remaining →
      (∀ j, j < k → ∃ e, results (attempt + j) = .error e) →
      results (attempt + k) = .ok v →
      retryExec delay results attempt remaining =
        (.ok v, (List.range k).map fun j => delay (attempt + j)) := by
  intro k
  induction k with
  | zero =>
      intro remaining attempt hk _ hok
      rw [Nat.add_zero] at hok
      match remaining, hk with
      | 1, _ =>
          simp only [retryExec, hok]
          simp
      | rem + 2, _ =>
          simp only [retryExec, hok]
          simp
  | succ k2 ih =>
      intro remaining attempt hk hfail hok
      match remaining, hk with
      | rem + 2, hk =>
          rcases hfail 0 (Nat.zero_lt_succ k2) with ⟨e, he⟩
          rw [Nat.add_zero] at he
          have hrec := ih (rem + 1) (attempt + 1) (by omega)
            (fun j hj => by
              have h2 := hfail (j + 1) (by omega)
              rwa [show attempt + (j + 1) = attempt + 1 + j from by omega] at h2)
            (by rwa [show attempt + 1 + k2 = attempt + (k2 + 1) from by omega])
          simp only [retryExec, he, hrec]
          rw [range_map_shift delay attempt k2]

lemma retryExec_congr (delay : Nat → ℚ) (results results2 : Nat → Except String α) :
    ∀ (remaining attempt : Nat),
      (∀ j, attempt ≤ j → j < attempt + remaining → results j = results2 j) →
      retryExec delay results attempt remaining = retryExec delay results2 attempt remaining := by
  intro remaining
  induction remaining with
  | zero => intro attempt _; rfl
  | succ rem ih =>
      intro attempt hagree
      cases rem with
      | zero =>
          simp only [retryExec]
          rw [hagree attempt (Nat.le_refl attempt) (by omega)]
      | succ rem2 =>
          have hrec := ih (attempt + 1) fun j h1 h2 => hagree j (by omega) (by omega)
          simp only [retryExec]
          rw [hagree attempt (Nat.le_refl attempt) (by omega), hrec]

/-- Counterexample to C5 as stated: with `retry_attempts = 4` and
`retry_delay = 1` and every attempt failing, `OpenAIClient.send_message`
sleeps 1, 2, 3 — the linear schedule `retry_delay * (attempt + 1)` — while
the claimed exponential schedule `retry_delay * 2 ** attempt` (which
`ClaudeClient._make_request` does follow) would be 1, 2, 4. -/
theorem C5_openai_backoff_counterexample :
    (openai_send_message 4 1 fun _ => Except.error (α := Unit) "boom").2 = [1, 2, 3]
    ∧ (_make_request 4 1 fun _ => Except.error (α := Unit) "boom").2 = [1, 2, 4]
    ∧ (openai_send_message 4 1 fun _ => Except.error (α := Unit) "boom").2 ≠
        (List.range 3).map fun j => (1 : ℚ) * 2 ^ j := by
  refine ⟨?_, ?_, ?_⟩
  · norm_num [openai_send_message, retryExec]
  · norm_num [_make_request, retryExec]
  · norm_num [openai_send_message, retryExec, List.range_succ]

/-- C5 amended: both retrying paths make at most `retry_attempts` attempts,
re-raise the final attempt's failure unmodified when all attempts fail, and
return the first success; but the inter-attempt sleep after failed attempt
`attempt` is `retry_delay * 2 ** attempt` (exponential) only in
`ClaudeClient._make_request`, while `OpenAIClient.send_message` sleeps
`retry_delay * (attempt + 1)` (linear).  The two schedules agree on the
first two delays, so fail, fail, succeed under the default three attempts
yields success with sleeps `base * 1` then `base * 2` on both paths. -/
theorem C5_retry_backoff (n : Nat) (d : ℚ) (results : Nat → Except String α)
    (results2 : Nat → Except String α) (err : Nat → String) (k : Nat) (v : α) :
    ((∀ j, results j = .error (err j)) → 1 ≤ n →
      _make_request n d results =
          (.error (err (n - 1)), (List.range (n - 1)).map fun j => d * 2 ^ j)
      ∧ openai_send_message n d results =
          (.error (err (n - 1)), (List.range (n - 1)).map fun (j : Nat) => d * ((j : ℚ) + 1)))
    ∧ (k < n → (∀ j, j < k → ∃ e, results j = .error e) → results k = .ok v →
        _make_request n d results = (.ok v, (List.range k).map fun j => d * 2 ^ j)
        ∧ openai_send_message n d results =
            (.ok v, (List.range k).map fun (j : Nat) => d * ((j : ℚ) + 1)))
    ∧ ((∀ j, j < n → results j = results2 j) →
        _make_request n d results = _make_request n d results2
        ∧ openai_send_message n d results = openai_send_message n d results2)
    ∧ ((∀ j, j < 2 → ∃ e, results j = .error e) → results 2 = .ok v →
        (_make_request 3 d results).1 = .ok v
        ∧ (_make_request 3 d results).2 = [d * 1, d * 2]
        ∧ (openai_send_message 3 d results).1 = .ok v
        ∧ (openai_send_message 3 d results).2 = [d * 1, d * 2]) := by
  refine ⟨?_, ?_, ?_, ?_⟩
  · intro herr hn
    constructor
    · rw [_make_request, retryExec_all_fail _ err results herr n 0 hn]
      simp only [Nat.zero_add]
    · rw [openai_send_message, retryExec_all_fail _ err results herr n 0 hn]
      simp only [Nat.zero_add]
  · intro hk hfail hok
    constructor
    · rw [_make_request, retryExec_first_success _ results v k n 0 hk
        (fun j hj => by simpa using hfail j hj) (by simpa using hok)]
      simp only [Nat.zero_add]
    · rw [openai_send_message, retryExec_first_success _ results v k n 0 hk
        (fun j hj => by simpa using hfail j hj) (by simpa using hok)]
      simp only [Nat.zero_add]
  · intro hagree
    exact ⟨retryExec_congr _ results results2 n 0 fun j h1 h2 => hagree j (by omega),
      retryExec_congr _ results results2 n 0 fun j h1 h2 => hagree j (by omega)⟩
  · intro hfail hok
    have hm := retryExec_first_success (fun attempt => d * 2 ^ attempt) results v 2 3 0
      (by omega) (fun j hj => by simpa using hfail j hj) (by simpa using hok)
    have ho := retryExec_first_success (fun attempt => d * ((attempt : ℚ) + 1)) results v 2 3 0
      (by omega) (fun j hj => by simpa using hfail j hj) (by simpa using hok)
    rw [_make_request, hm, openai_send_message, ho]
    refine ⟨rfl, ?_, rfl, ?_⟩
    · norm_num [List.range_succ]
    · norm_num [List.range_succ]

/-- Witness for C5 amended: fail, fail, succeed with base delay 1 — both
loops succeed with sleeps `[1, 2]`, and both exhaustion formulas instantiated
on an always-failing call with 3 attempts. -/
theorem C5_retry_backoff_witness :
    (_make_request 3 1 fun j =>
        if j < 2 then Except.error (α := Unit) "down" else .ok ()).2 = [1 * 1, 1 * 2]
    ∧ (openai_send_message 3 1 fun j =>
        if j < 2 then Except.error (α := Unit) "down" else .ok ()).2 = [1 * 1, 1 * 2]
    ∧ (_make_request 3 1 fun _ => Except.error (α := Unit) "down").1 = .error "down" := by
  have h := (C5_retry_backoff 3 1
      (fun j => if j < 2 then Except.error (α := Unit) "down" else .ok ())
      (fun j => if j < 2 then Except.error (α := Unit) "down" else .ok ())
      (fun _ => "down") 2 ()).2.2.2
    (fun j hj => ⟨"down", by simp [hj]⟩) (by norm_num)
  have h2 := ((C5_retry_backoff 3 1 (fun _ => Except.error (α := Unit) "down")
      (fun _ => Except.error (α := Unit) "down") (fun _ => "down") 2 ()).1
    (fun _ => rfl) (by omega)).1
  refine ⟨h.2.1, h.2.2.2, ?_⟩
  rw [h2]

/-! ## C6: provider failover -/

lemma trySend_all_fail (m : MultiState) (call : AIService → Except String String) :
    ∀ (l : List AIService) (acc : Option String),
      (∀ s ∈ l, _is_service_available m s = true → ∃ e, call s = .error e) →
      trySend m call l acc = .error (lastErrSpec m call l acc) := by
  intro l
  induction l with
  | nil => intro acc _; rfl
  | cons s rest ih =>
      intro acc hall
      by_cases hs : _is_service_available m s = true
      · rcases hall s (List.mem_cons_self s rest) hs with ⟨e, he⟩
        simp only [trySend, lastErrSpec, hs, if_true, he]
        exact ih (some e) fun u hu hu2 => hall u (List.mem_cons_of_mem s hu) hu2
      · simp only [trySend, lastErrSpec, hs, if_false]
        exact ih acc fun u hu hu2 => hall u (List.mem_cons_of_mem s hu) hu2

lemma trySend_first_success (m : MultiState) (call : AIService → Except String String)
    (s : AIService) (c : String) (hs : _is_service_available m s = true)
    (hc : call s = .ok c) :
    ∀ (l1 l2 : List AIService) (acc : Option String),
      (∀ u ∈ l1, _is_service_available m u = true → ∃ e, call u = .error e) →
      trySend m call (l1 ++ s :: l2) acc = .ok (c, s) := by
  intro l1
  induction l1 with
  | nil =>
      intro l2 acc _
      simp only [List.nil_append, trySend, hs, if_true, hc]
  | cons u rest ih =>
      intro l2 acc hall
      by_cases hu : _is_service_available m u = true
      · rcases hall u (List.mem_cons_self u rest) hu with ⟨e, he⟩
        simp only [List.cons_append, trySend, hu, if_true, he]
        exact ih l2 (some e) fun w hw hw2 => hall w (List.mem_cons_of_mem u hw) hw2
      · simp only [List.cons_append, trySend, hu, if_false]
        exact ih l2 acc fun w hw hw2 => hall w (List.mem_cons_of_mem u hw) hw2

lemma trySend_error_all_fail (m : MultiState) (call : AIService → Except String String) :
    ∀ (l : List AIService) (acc : Option String) (err : Option String),
      trySend m call l acc = .error err →
      ∀ u ∈ l, _is_service_available m u = true → ∃ e, call u = .error e := by
  intro l
  induction l with
  | nil => intro acc err _ u hu; simp at hu
  | cons s rest ih =>
      intro acc err h u hu hav
      by_cases hs : _is_service_available m s = true
      · rcases hcall : call s with e | c
        · rcases List.mem_cons.1 hu with hu | hu
          · subst hu; exact ⟨e, hcall⟩
          · simp only [trySend, hs, if_true, hcall] at h
            exact ih (some e) err h u hu hav
        · simp only [trySend, hs, if_true, hcall] at h
          cases h
      · rcases List.mem_cons.1 hu with hu | hu
        · subst hu; exact absurd hav hs
        · simp only [trySend, hs, if_false] at h
          exact ih acc err h u hu hav

lemma foldl_dedup (l : List AIService) :
    ∀ acc : List AIService, l.Nodup →
      l.foldl (fun acc2 service => if acc2.contains service then acc2 else acc2 ++ [service])
          acc
        = acc ++ l.filter fun service => !acc.contains service := by
  induction l with
  | nil => intro acc _; simp
  | cons s rest ih =>
      intro acc hnd
      rcases List.nodup_cons.1 hnd with ⟨hs, hrest⟩
      rw [List.foldl_cons]
      by_cases hc : acc.contains s = true
      · rw [if_pos hc, ih acc hrest, List.filter_cons]
        have hmem : s ∈ acc := by simpa using hc
        simp [hmem]
      · rw [if_neg hc, ih (acc ++ [s]) hrest, List.filter_cons]
        simp only [hc, Bool.not_false, if_true]
        rw [List.append_assoc, List.singleton_append]
        congr 1
        congr 1
        apply List.filter_congr
        intro u hu
        have hne : u ≠ s := fun h => hs (h ▸ hu)
        simp only [List.contains_eq_any_beq, List.any_append]
        simp [hne]

/-- C6: `MultiAIClient.send_message` tries the candidate list — the preferred
service first when specified and available, then the configured priority
order without duplicates — returns the first available candidate's
successful response tagged with that service's identity, skipping failing
candidates, and raises an error carrying the last underlying provider error
exactly when every available candidate failed. -/
theorem C6_provider_failover (m : MultiState) (call : AIService → Except String String)
    (p : AIService) (c : String) (l1 l2 : List AIService)
    (hnd : m.service_priority.Nodup) :
    (_is_service_available m p = true →
      services_to_try m (some p) = p :: m.service_priority.filter fun s => !(s == p))
    ∧ services_to_try m none = m.service_priority
    ∧ (∀ pref : Option AIService,
        services_to_try m pref = l1 ++ p :: l2 →
        (∀ u ∈ l1, _is_service_available m u = true → ∃ e, call u = .error e) →
        _is_service_available m p = true → call p = .ok c →
        multi_send_message m call pref = .ok (c, p))
    ∧ (∀ pref : Option AIService,
        (∀ u ∈ services_to_try m pref, _is_service_available m u = true →
          ∃ e, call u = .error e) →
        multi_send_message m call pref =
          .error (lastErrSpec m call (services_to_try m pref) none))
    ∧ (∀ (pref : Option AIService) (err : Option String),
        multi_send_message m call pref = .error err →
        ∀ u ∈ services_to_try m pref, _is_service_available m u = true →
          ∃ e, call u = .error e) := by
  refine ⟨?_, ?_, ?_, ?_, ?_⟩
  · intro hp
    show (m.service_priority.foldl
        (fun acc2 service => if acc2.contains service then acc2 else acc2 ++ [service])
        (if _is_service_available m p then [p] else [])) = _
    rw [if_pos hp, foldl_dedup m.service_priority [p] hnd, List.singleton_append]
    congr 1
    apply List.filter_congr
    intro u _
    simp [Bool.beq_eq_decide_eq]
  · show (m.service_priority.foldl
        (fun acc2 service => if acc2.contains service then acc2 else acc2 ++ [service]) []) = _
    rw [foldl_dedup m.service_priority [] hnd]
    simp
  · intro pref hsplit hfail hp hcall
    rw [multi_send_message, hsplit]
    exact trySend_first_success m call p c hp hcall l1 l2 none hfail
  · intro pref hall
    rw [multi_send_message]
    exact trySend_all_fail m call (services_to_try m pref) none hall
  · intro pref err h
    exact trySend_error_all_fail m call (services_to_try m pref) none err h

/-- Witness for C6: with both services configured in priority order
`[openai, claude]`, a failing OpenAI and a succeeding Claude, the call
returns Claude's content tagged `claude`; with both failing, it errors
carrying the last (Claude's) failure. -/
theorem C6_provider_failover_witness :
    multi_send_message ⟨true, true, [.openai, .claude]⟩
      (fun s => match s with
        | .openai => .error "openai down"
        | .claude => .ok "claude says hi") none = .ok ("claude says hi", .claude)
    ∧ multi_send_message ⟨true, true, [.openai, .claude]⟩
      (fun s => match s with
        | .openai => .error "openai down"
        | .claude => .error "claude down") none = .error (some "claude down") := by
  constructor
  · exact (C6_provider_failover ⟨true, true, [.openai, .claude]⟩
      (fun s => match s with
        | .openai => .error "openai down"
        | .claude => .ok "claude says hi")
      .claude "claude says hi" [.openai] [] (by decide)).2.2.1 none (by decide)
      (by
        intro u hu _
        have hu2 : u = AIService.openai := by
          cases hu with
          | head => rfl
          | tail _ h => cases h
        subst hu2
        exact ⟨"openai down", rfl⟩)
      (by decide) rfl
  · have h := (C6_provider_failover ⟨true, true, [.openai, .claude]⟩
      (fun s => match s with
        | .openai => .error "openai down"
        | .claude => .error "claude down")
      .claude "unused" [] [] (by decide)).2.2.2.1 none
      (by
        intro u hu _
        cases u with
        | openai => exact ⟨"openai down", rfl⟩
        | claude => exact ⟨"claude down", rfl⟩)
    rw [h]
    rfl

end ModelAI
